import Mathlib

/-!
Verification development for a YouTube subscription data collector
(`youtube_data_collector.py`).  The program authenticates against the
YouTube API, walks the caller's subscriptions with cursor-based
pagination, fetches recent videos and their statistics per channel,
stores rows in a `videos` table, and keeps a flat-file checkpoint of
already-processed channel ids.

The embedding below models the remote API as explicit data: each
paginated endpoint is a list of responses (one per request the loop
would make), where a response is either a transport error (`HttpError`,
carrying the status code) or a page of items.  The pagination loops,
the checkpoint logic and the error boundary of `fetch_and_store_data`
are translated statement by statement from the source.
-/

namespace YTCollector

/-! ## Checkpoint file model (`load_processed_channels` / `save_processed_channels`)

The checkpoint file is plain text, one channel id per line.  Loading
uses Python's `str.splitlines`, which splits on the full set of line
boundary characters and treats `"\r\n"` as a single boundary, and does
not produce a trailing empty line for content ending in a line break.
File contents are modelled as `List Char`; an absent file is `none`.
-/

/-- The line-boundary characters recognised by Python `str.splitlines`. -/
def isLineBreak (c : Char) : Bool :=
  c = '\n' || c = '\r' || c = '\x0b' || c = '\x0c' ||
  c = '\x1c' || c = '\x1d' || c = '\x1e' || c = '\x85' ||
  c = '\u2028' || c = '\u2029'

/-- Python `str.splitlines` on a character list. -/
def splitlines : List Char → List (List Char)
  | [] => []
  | c :: cs =>
    if c = '\r' then
      match cs with
      | [] => [[]]
      | c2 :: cs2 =>
        if c2 = '\n' then [] :: splitlines cs2
        else [] :: splitlines (c2 :: cs2)
    else if isLineBreak c then [] :: splitlines cs
    else
      match splitlines cs with
      | [] => [[c]]
      | l :: ls => (c :: l) :: ls

/-- `load_processed_channels`: if the file exists, return
`set(file.read().splitlines())`; otherwise the empty set. -/
def load_processed_channels : Option (List Char) → Finset (List Char)
  | none => ∅
  | some content => (splitlines content).toFinset

/-- `save_processed_channels`: overwrite the file with one line
`channel_id + '\n'` per element, in the set's iteration order `ids`. -/
def save_processed_channels (ids : List (List Char)) : List Char :=
  (ids.map (fun s => s ++ ['\n'])).flatten

/-! ## Run model

Remote data.  A paginated endpoint is modelled by the list of its
successive responses: the `n`-th element is what the `n`-th request of
the loop returns — a transport error or a page of items (the last list
element is the page that carries no `nextPageToken`).
-/

/-- One subscription item, as used by `fetch_and_store_data`:
`item['snippet']['resourceId']['channelId']` and `item['snippet']['title']`. -/
structure Subscription where
  channelId : String
  channelTitle : String
deriving DecidableEq

/-- One search result item, as used by `process_subscription` /
`process_video`: `video['id']['videoId']` and `video['snippet']['title']`. -/
structure Video where
  videoId : String
  videoTitle : String
deriving DecidableEq

/-- A statistics payload; each counter may be omitted by the platform. -/
structure Stats where
  viewCount : Option Nat
  likeCount : Option Nat
  commentCount : Option Nat
deriving DecidableEq

/-- A row of the `videos` table. -/
structure Row where
  channel_title : String
  video_title : String
  views : Nat
  likes : Nat
  comment_count : Nat
deriving DecidableEq

/-- Observable log messages of a run. -/
inductive LogMsg where
  /-- `logging.info(f"Video '...' data saved successfully.")` -/
  | savedVideo (videoTitle : String)
  /-- `logging.info("Data fetching and storage completed successfully.")` -/
  | completed
  /-- `logging.error(f"An HTTP error ... occurred")` -/
  | httpError (status : Nat)
deriving DecidableEq

/-- The remote API as seen by one run.  `subPages1` answers the counting
pass (`get_total_subscription_count`), `subPages2` answers the second,
independent traversal made by the processing loop; `searchPages` answers
the per-channel video search; `statsLookup` answers
`videos().list(part='statistics', id=...)`, where `.ok none` means the
response had an empty or missing `items` list. -/
structure Env where
  subPages1 : List (Except Nat (List Subscription))
  subPages2 : List (Except Nat (List Subscription))
  searchPages : String → List (Except Nat (List Video))
  statsLookup : String → Except Nat (Option Stats)

/-- Mutable state of a run: the in-memory checkpoint set
`processed_channels`, the rows inserted into the `videos` table so far,
the log, and (ghost instrumentation) the channel ids for which
`process_subscription` has been invoked, in invocation order. -/
structure RunSt where
  processed : Finset String
  rows : List Row
  logs : List LogMsg
  invoked : List String
deriving DecidableEq

/-- `save_to_database`: build the inserted row, each counter defaulting
to `0` when the statistics payload omits it. -/
def save_to_database (channel_title video_title : String) (st : Stats) : Row :=
  { channel_title := channel_title
    video_title := video_title
    views := st.viewCount.getD 0
    likes := st.likeCount.getD 0
    comment_count := st.commentCount.getD 0 }

/-- `process_video`: look up statistics; insert a row only when the
response has a nonempty `items` list; log "saved successfully"
unconditionally afterwards.  The second component is `some e` when an
`HttpError e` is raised. -/
def process_video (env : Env) (channelTitle : String) (v : Video)
    (s : RunSt) : RunSt × Option Nat :=
  match env.statsLookup v.videoId with
  | .error e => (s, some e)
  | .ok none =>
    ({ s with logs := s.logs ++ [LogMsg.savedVideo v.videoTitle] }, none)
  | .ok (some st) =>
    ({ s with
        rows := s.rows ++ [save_to_database channelTitle v.videoTitle st]
        logs := s.logs ++ [LogMsg.savedVideo v.videoTitle] }, none)

/-- Exception propagation: run the continuation `k` on the state left by
`r` unless `r` raised, in which case the raise propagates with the state
it was raised in. -/
def andThen (r : RunSt × Option Nat) (k : RunSt → RunSt × Option Nat) :
    RunSt × Option Nat :=
  match r with
  | (s1, some e) => (s1, some e)
  | (s1, none) => k s1

/-- The `for video in videos_request['items']` loop of `process_subscription`. -/
def process_videos (env : Env) (channelTitle : String) :
    List Video → RunSt → RunSt × Option Nat
  | [], s => (s, none)
  | v :: vs, s =>
    andThen (process_video env channelTitle v s) (process_videos env channelTitle vs)

/-- The `while True` pagination loop of `process_subscription` over the
search endpoint: one response per iteration, stopping at the last page
or raising at the first failed request. -/
def search_loop (env : Env) (channelTitle : String) :
    List (Except Nat (List Video)) → RunSt → RunSt × Option Nat
  | [], s => (s, none)
  | .error e :: _, s => (s, some e)
  | .ok page :: rest, s =>
    andThen (process_videos env channelTitle page s) (search_loop env channelTitle rest)

/-- `process_subscription`: page through the channel's video search and
process every returned video. -/
def process_subscription (env : Env) (item : Subscription) (s : RunSt) :
    RunSt × Option Nat :=
  search_loop env item.channelTitle (env.searchPages item.channelId) s

/-- The `for item in subscriptions['items']` loop of
`fetch_and_store_data`: skip channels already in the checkpoint set,
otherwise invoke `process_subscription` and then add the channel. -/
def process_items (env : Env) : List Subscription → RunSt → RunSt × Option Nat
  | [], s => (s, none)
  | item :: rest, s =>
    if item.channelId ∈ s.processed then process_items env rest s
    else
      andThen
        (process_subscription env item
          { s with invoked := s.invoked ++ [item.channelId] })
        (fun s1 =>
          process_items env rest { s1 with processed := insert item.channelId s1.processed })

/-- The outer `while True` pagination loop of `fetch_and_store_data`
over the subscriptions endpoint. -/
def subs_loop (env : Env) : List (Except Nat (List Subscription)) → RunSt → RunSt × Option Nat
  | [], s => (s, none)
  | .error e :: _, s => (s, some e)
  | .ok items :: rest, s =>
    andThen (process_items env items s) (subs_loop env rest)

/-- The `while True` loop of `get_total_subscription_count`:
`count += len(subscriptions['items'])` per page. -/
def count_loop : List (Except Nat (List Subscription)) → Nat → Except Nat Nat
  | [], n => .ok n
  | .error e :: _, _ => .error e
  | .ok page :: rest, n => count_loop rest (n + page.length)

/-- `get_total_subscription_count`: a full pagination pass over the
subscriptions endpoint, counting items. -/
def get_total_subscription_count (env : Env) : Except Nat Nat :=
  count_loop env.subPages1 0

/-- The checkpoint set obtained from the checkpoint file at run start
(set level; an absent file yields the empty set). -/
def loadCheckpoint (f : Option (Finset String)) : Finset String :=
  f.getD ∅

/-- The run state at entry of the per-subscription loop. -/
def initSt (f0 : Option (Finset String)) : RunSt :=
  { processed := loadCheckpoint f0, rows := [], logs := [], invoked := [] }

/-- The observable outcome of one `fetch_and_store_data` call:
the checkpoint file after the run, the rows inserted, the log, the
(ghost) invocation list, and the exception escaping the call, if any. -/
structure Outcome where
  file : Option (Finset String)
  rows : List Row
  logs : List LogMsg
  invoked : List String
  raised : Option Nat
deriving DecidableEq

/-- `fetch_and_store_data`: load the checkpoint, take the total
subscription count (outside the `try` block), run the per-subscription
loop inside the error boundary, apply the reset rule
`len(processed_channels) >= total_subscriptions`, and persist the
checkpoint — unless an `HttpError` was raised in the loop, in which
case it is logged and swallowed and the file is left untouched.  An
error during the counting pass escapes the call. -/
def fetch_and_store_data (env : Env) (f0 : Option (Finset String)) : Outcome :=
  match get_total_subscription_count env with
  | .error e => { file := f0, rows := [], logs := [], invoked := [], raised := some e }
  | .ok total =>
    match subs_loop env env.subPages2 (initSt f0) with
    | (st, some e) =>
      { file := f0, rows := st.rows, logs := st.logs ++ [LogMsg.httpError e]
        invoked := st.invoked, raised := none }
    | (st, none) =>
      let final := if total ≤ st.processed.card then (∅ : Finset String) else st.processed
      { file := some final, rows := st.rows, logs := st.logs ++ [LogMsg.completed]
        invoked := st.invoked, raised := none }

/-- The channel ids of a list of subscription items. -/
def idsOf (items : List Subscription) : Finset String :=
  (items.map Subscription.channelId).toFinset

/-- The channel ids occurring in the successfully served pages of a
subscriptions-endpoint response list. -/
def pages_channel_ids : List (Except Nat (List Subscription)) → Finset String
  | [] => ∅
  | .error _ :: rest => pages_channel_ids rest
  | .ok items :: rest => idsOf items ∪ pages_channel_ids rest

/-- Agreement on the checkpoint set and on the invocation list: video
processing touches only rows and logs, so it relates states by `Frame`. -/
def Frame (s s1 : RunSt) : Prop :=
  s1.processed = s.processed ∧ s1.invoked = s.invoked

/-- An account with a single subscription `A` that has no recent videos. -/
def envOneSub : Env :=
  { subPages1 := [.ok [⟨"A", "Channel A"⟩]]
    subPages2 := [.ok [⟨"A", "Channel A"⟩]]
    searchPages := fun _ => []
    statsLookup := fun _ => .ok none }

/-- An account with two subscriptions served on two one-item pages,
neither with recent videos. -/
def envTwoPages : Env :=
  { subPages1 := [.ok [⟨"A", "Channel A"⟩], .ok [⟨"B", "Channel B"⟩]]
    subPages2 := [.ok [⟨"A", "Channel A"⟩], .ok [⟨"B", "Channel B"⟩]]
    searchPages := fun _ => []
    statsLookup := fun _ => .ok none }

/-- A run in which channel `A` is processed (inserting one video row)
and the second subscriptions request then fails with HTTP 500. -/
def envAbort : Env :=
  { subPages1 := [.ok []]
    subPages2 := [.ok [⟨"A", "Channel A"⟩], .error 500]
    searchPages := fun _ => [.ok [⟨"v1", "Video 1"⟩]]
    statsLookup := fun _ => .ok (some ⟨some 5, none, some 2⟩) }

/-- A run whose very first request — made by the counting pass — fails
with HTTP 403. -/
def envCountErr : Env :=
  { subPages1 := [.error 403]
    subPages2 := []
    searchPages := fun _ => []
    statsLookup := fun _ => .ok none }

/-! ## Checkpoint file lemmas -/

/-- `splitlines` splits off a line terminated by `'\n'` as long as the
line itself contains no line-boundary character. -/
theorem splitlines_append_newline (s t : List Char)
    (h : ∀ c ∈ s, isLineBreak c = false) :
    splitlines (s ++ '\n' :: t) = s :: splitlines t := by
  induction s with
  | nil =>
    show splitlines ('\n' :: t) = [] :: splitlines t
    rw [splitlines.eq_def]
    simp [isLineBreak]
  | cons c cs ih =>
    have hc : isLineBreak c = false := h c (by simp)
    have hr : ¬ c = '\r' := by
      intro hh
      rw [hh] at hc
      simp [isLineBreak] at hc
    have hb : ¬ isLineBreak c = true := by simp [hc]
    show splitlines (c :: (cs ++ '\n' :: t)) = (c :: cs) :: splitlines t
    rw [splitlines.eq_def]
    simp only [if_neg hr, if_neg hb, ih (fun d hd => h d (by simp [hd]))]

/-- Saving a list of line-boundary-free ids and splitting the file back
into lines recovers the ids exactly. -/
theorem splitlines_save (ids : List (List Char))
    (h : ∀ s ∈ ids, ∀ c ∈ s, isLineBreak c = false) :
    splitlines (save_processed_channels ids) = ids := by
  induction ids with
  | nil => rfl
  | cons s rest ih =>
    show splitlines ((s ++ ['\n']) ++ (rest.map (fun x => x ++ ['\n'])).flatten) = _
    rw [List.append_assoc, List.singleton_append,
      splitlines_append_newline s _ (h s (by simp))]
    exact congrArg _ (ih (fun x hx => h x (by simp [hx])))

/-! ## Frame lemmas: video processing touches only rows and logs -/

theorem frame_rfl (s : RunSt) : Frame s s := ⟨rfl, rfl⟩

theorem frame_trans {s s1 s2 : RunSt} (h1 : Frame s s1) (h2 : Frame s1 s2) :
    Frame s s2 := ⟨h2.1.trans h1.1, h2.2.trans h1.2⟩

theorem andThen_frame {s : RunSt} (r : RunSt × Option Nat)
    (k : RunSt → RunSt × Option Nat) (hr : Frame s r.1)
    (hk : ∀ s1, Frame s1 (k s1).1) : Frame s (andThen r k).1 := by
  rcases r with ⟨s1, r2⟩
  cases r2 with
  | none => exact frame_trans hr (hk s1)
  | some e => exact hr

theorem process_video_frame (env : Env) (ct : String) (v : Video) (s : RunSt) :
    Frame s (process_video env ct v s).1 := by
  unfold process_video
  cases hE : env.statsLookup v.videoId with
  | error e => exact ⟨rfl, rfl⟩
  | ok p =>
    cases p with
    | none => exact ⟨rfl, rfl⟩
    | some st => exact ⟨rfl, rfl⟩

theorem process_videos_frame (env : Env) (ct : String) (vs : List Video) :
    ∀ s : RunSt, Frame s (process_videos env ct vs s).1 := by
  induction vs with
  | nil => intro s; exact frame_rfl s
  | cons v vs ih =>
    intro s
    exact andThen_frame _ _ (process_video_frame env ct v s) ih

theorem search_loop_frame (env : Env) (ct : String)
    (pages : List (Except Nat (List Video))) :
    ∀ s : RunSt, Frame s (search_loop env ct pages s).1 := by
  induction pages with
  | nil => intro s; exact frame_rfl s
  | cons p rest ih =>
    intro s
    cases p with
    | error e => exact frame_rfl s
    | ok page => exact andThen_frame _ _ (process_videos_frame env ct page s) ih

theorem process_subscription_frame (env : Env) (item : Subscription) (s : RunSt) :
    Frame s (process_subscription env item s).1 :=
  search_loop_frame env item.channelTitle (env.searchPages item.channelId) s

/-! ## Invariants of the per-subscription loop -/

theorem idsOf_cons (it : Subscription) (rest : List Subscription) :
    idsOf (it :: rest) = insert it.channelId (idsOf rest) := by
  simp [idsOf]

/-- Combined invariant of the `for item in subscriptions['items']`
loop: the checkpoint set only grows; it stays inside the initial set
plus the ids of the walked items; the invocation list is extended by a
duplicate-free list of ids that were not initially checkpointed (and
that all end up checkpointed when no error is raised); on a clean pass
every walked item's id is checkpointed afterwards; and everything newly
checkpointed was invoked. -/
theorem process_items_spec (env : Env) (items : List Subscription) :
    ∀ s : RunSt,
      s.processed ⊆ (process_items env items s).1.processed ∧
      (process_items env items s).1.processed ⊆ s.processed ∪ idsOf items ∧
      (∃ new, (process_items env items s).1.invoked = s.invoked ++ new ∧
        new.Nodup ∧ (∀ c ∈ new, c ∉ s.processed) ∧
        ((process_items env items s).2 = none →
          ∀ c ∈ new, c ∈ (process_items env items s).1.processed)) ∧
      ((process_items env items s).2 = none →
        ∀ it ∈ items, it.channelId ∈ (process_items env items s).1.processed) ∧
      (∀ c ∈ (process_items env items s).1.processed,
        c ∈ s.processed ∨ c ∈ (process_items env items s).1.invoked) := by
  induction items with
  | nil =>
    intro s
    refine ⟨Finset.Subset.refl _, by simp [process_items], ⟨[], by simp [process_items], ?_⟩,
      by simp [process_items], fun c hc => Or.inl hc⟩
    simp [process_items]
  | cons item rest ih =>
    intro s
    by_cases hmem : item.channelId ∈ s.processed
    · simp only [process_items, if_pos hmem]
      obtain ⟨ih1, ih2, ih3, ih4, ih5⟩ := ih s
      refine ⟨ih1, ih2.trans (Finset.union_subset_union_right ?_), ih3, ?_, ih5⟩
      · rw [idsOf_cons]
        exact Finset.subset_insert _ _
      · intro hnone it hit
        rcases List.mem_cons.mp hit with hhd | htl
        · exact ih1 (hhd ▸ hmem)
        · exact ih4 hnone it htl
    · simp only [process_items, if_neg hmem]
      rcases hPS : process_subscription env item
          { s with invoked := s.invoked ++ [item.channelId] } with ⟨s1, r1⟩
      have hfr := process_subscription_frame env item
        { s with invoked := s.invoked ++ [item.channelId] }
      rw [hPS] at hfr
      have hp : s1.processed = s.processed := hfr.1
      have hi : s1.invoked = s.invoked ++ [item.channelId] := hfr.2
      cases r1 with
      | some e =>
        simp only [andThen]
        refine ⟨hp.symm ▸ Finset.Subset.refl _, ?_, ⟨[item.channelId], by simp [hi], ?_⟩,
          by simp, ?_⟩
        · rw [hp]
          exact Finset.subset_union_left
        · refine ⟨List.nodup_singleton _, ?_, ?_⟩
          · intro c hc
            rw [List.mem_singleton.mp hc]
            exact hmem
          · intro h
            simp at h
        · intro c hc
          rw [hp] at hc
          exact Or.inl hc
      | none =>
        simp only [andThen]
        obtain ⟨ih1, ih2, ⟨new2, hinv2, hnd2, hnotin2, hsub2⟩, ih4, ih5⟩ :=
          ih { s1 with processed := insert item.channelId s1.processed }
        have hs2p : ({ s1 with processed := insert item.channelId s1.processed } : RunSt).processed
            = insert item.channelId s.processed := by
          simp [hp]
        rw [hs2p] at ih1 ih2 ih5
        refine ⟨(Finset.subset_insert _ _).trans ih1, ?_, ?_, ?_, ?_⟩
        · refine ih2.trans ?_
          rw [idsOf_cons]
          intro c hc
          simp only [Finset.mem_union, Finset.mem_insert] at hc ⊢
          tauto
        · refine ⟨item.channelId :: new2, ?_, ?_, ?_, ?_⟩
          · rw [hinv2]
            show s1.invoked ++ new2 = _
            rw [hi, List.append_assoc, List.singleton_append]
          · refine List.nodup_cons.mpr ⟨?_, hnd2⟩
            intro hc
            exact hnotin2 item.channelId hc (hs2p ▸ Finset.mem_insert_self _ _)
          · intro c hc
            rcases List.mem_cons.mp hc with hhd | htl
            · exact hhd ▸ hmem
            · intro hcs
              exact hnotin2 c htl (hs2p ▸ Finset.mem_insert_of_mem hcs)
          · intro hnone c hc
            rcases List.mem_cons.mp hc with hhd | htl
            · exact hhd ▸ ih1 (Finset.mem_insert_self _ _)
            · exact hsub2 hnone c htl
        · intro hnone it hit
          rcases List.mem_cons.mp hit with hhd | htl
          · exact hhd ▸ ih1 (Finset.mem_insert_self _ _)
          · exact ih4 hnone it htl
        · intro c hc
          rcases ih5 c hc with hin | hinv
          · rcases Finset.mem_insert.mp hin with hcid | hold
            · refine Or.inr ?_
              rw [hinv2]
              show c ∈ s1.invoked ++ new2
              rw [hi, hcid]
              simp
            · exact Or.inl hold
          · exact Or.inr hinv

theorem pages_channel_ids_cons_ok (items : List Subscription)
    (rest : List (Except Nat (List Subscription))) :
    pages_channel_ids (Except.ok items :: rest) = idsOf items ∪ pages_channel_ids rest := by
  rfl

/-- The invariant of `process_items_spec`, lifted through the outer
pagination loop of `fetch_and_store_data`. -/
theorem subs_loop_spec (env : Env) (pages : List (Except Nat (List Subscription))) :
    ∀ s : RunSt,
      s.processed ⊆ (subs_loop env pages s).1.processed ∧
      (subs_loop env pages s).1.processed ⊆ s.processed ∪ pages_channel_ids pages ∧
      (∃ new, (subs_loop env pages s).1.invoked = s.invoked ++ new ∧
        new.Nodup ∧ (∀ c ∈ new, c ∉ s.processed) ∧
        ((subs_loop env pages s).2 = none →
          ∀ c ∈ new, c ∈ (subs_loop env pages s).1.processed)) ∧
      ((subs_loop env pages s).2 = none →
        ∀ items, Except.ok items ∈ pages → ∀ it ∈ items,
          it.channelId ∈ (subs_loop env pages s).1.processed) ∧
      (∀ c ∈ (subs_loop env pages s).1.processed,
        c ∈ s.processed ∨ c ∈ (subs_loop env pages s).1.invoked) := by
  induction pages with
  | nil =>
    intro s
    exact ⟨Finset.Subset.refl _, by simp [subs_loop, pages_channel_ids],
      ⟨[], by simp [subs_loop], by simp, by simp, by simp⟩,
      by simp, fun c hc => Or.inl hc⟩
  | cons p rest ih =>
    intro s
    cases p with
    | error e =>
      simp only [subs_loop]
      refine ⟨Finset.Subset.refl _, Finset.subset_union_left,
        ⟨[], by simp, by simp, by simp, ?_⟩, ?_, fun c hc => Or.inl hc⟩
      · intro h
        simp at h
      · intro h
        simp at h
    | ok items =>
      simp only [subs_loop]
      obtain ⟨pi1, pi2, ⟨new1, pinv1, pnd1, pnot1, psub1⟩, pi4, pi5⟩ :=
        process_items_spec env items s
      rcases hPI : process_items env items s with ⟨s1, r1⟩
      rw [hPI] at pi1 pi2 pinv1 psub1 pi4 pi5
      cases r1 with
      | some e =>
        simp only [andThen]
        refine ⟨pi1, ?_, ⟨new1, pinv1, pnd1, pnot1, ?_⟩, ?_, pi5⟩
        · rw [pages_channel_ids_cons_ok, ← Finset.union_assoc]
          exact pi2.trans Finset.subset_union_left
        · intro h
          simp at h
        · intro h
          simp at h
      | none =>
        simp only [andThen]
        obtain ⟨ih1, ih2, ⟨new2, hinv2, hnd2, hnot2, hsub2⟩, ih4, ih5⟩ := ih s1
        have hnew1 : ∀ c ∈ new1, c ∈ s1.processed := psub1 rfl
        refine ⟨pi1.trans ih1, ?_, ?_, ?_, ?_⟩
        · rw [pages_channel_ids_cons_ok, ← Finset.union_assoc]
          exact ih2.trans (Finset.union_subset_union_left pi2)
        · refine ⟨new1 ++ new2, ?_, ?_, ?_, ?_⟩
          · rw [hinv2, pinv1, List.append_assoc]
          · exact pnd1.append hnd2 (fun c hc1 hc2 => hnot2 c hc2 (hnew1 c hc1))
          · intro c hc
            rcases List.mem_append.mp hc with h1 | h2
            · exact pnot1 c h1
            · intro hcs
              exact hnot2 c h2 (pi1 hcs)
          · intro hnone c hc
            rcases List.mem_append.mp hc with h1 | h2
            · exact ih1 (hnew1 c h1)
            · exact hsub2 hnone c h2
        · intro hnone items2 hmemp it hit
          rcases List.mem_cons.mp hmemp with hhd | htl
          · have : items2 = items := by
              injection hhd
            exact ih1 (pi4 rfl it (this ▸ hit))
          · exact ih4 hnone items2 htl it hit
        · intro c hc
          rcases ih5 c hc with h1 | h2
          · rcases pi5 c h1 with hl | hr
            · exact Or.inl hl
            · refine Or.inr ?_
              rw [hinv2]
              exact List.mem_append_left _ hr
          · exact Or.inr h2

/-! ## Pagination: how page boundaries fall does not matter -/

theorem andThen_assoc (r : RunSt × Option Nat) (k1 k2 : RunSt → RunSt × Option Nat) :
    andThen (andThen r k1) k2 = andThen r (fun s => andThen (k1 s) k2) := by
  rcases r with ⟨s, _ | e⟩ <;> rfl

theorem process_items_append (env : Env) (a b : List Subscription) :
    ∀ s : RunSt, process_items env (a ++ b) s =
      andThen (process_items env a s) (process_items env b) := by
  induction a with
  | nil => intro s; rfl
  | cons item rest ih =>
    intro s
    by_cases hmem : item.channelId ∈ s.processed
    · simp only [List.cons_append, process_items, if_pos hmem]
      exact ih s
    · simp only [List.cons_append, process_items, if_neg hmem, andThen_assoc]
      exact congrArg _ (funext fun s1 => ih _)

/-- The processing pass over a paginated subscription list is the
processing pass over the flattened list: page boundaries are invisible,
every item is visited exactly once, in order. -/
theorem subs_loop_map_ok (env : Env) (pages : List (List Subscription)) :
    ∀ s : RunSt,
      subs_loop env (pages.map Except.ok) s = process_items env pages.flatten s := by
  induction pages with
  | nil => intro s; rfl
  | cons p ps ih =>
    intro s
    rw [List.flatten_cons, process_items_append]
    show andThen (process_items env p s) (subs_loop env (ps.map Except.ok)) = _
    exact congrArg _ (funext fun s1 => ih s1)

theorem count_loop_map_ok (pages : List (List Subscription)) :
    ∀ n : Nat, count_loop (pages.map Except.ok) n = .ok (n + pages.flatten.length) := by
  induction pages with
  | nil => intro n; simp [count_loop]
  | cons p ps ih =>
    intro n
    show count_loop (ps.map Except.ok) (n + p.length) = _
    rw [ih]
    simp [Nat.add_assoc]

/-- The invocation list of a run is either empty (counting pass failed
before the loop started) or the invocation list of the
per-subscription loop. -/
theorem fetch_invoked_cases (env : Env) (f0 : Option (Finset String)) :
    (fetch_and_store_data env f0).invoked = [] ∨
    (fetch_and_store_data env f0).invoked =
      (subs_loop env env.subPages2 (initSt f0)).1.invoked := by
  unfold fetch_and_store_data
  cases get_total_subscription_count env with
  | error e => exact Or.inl rfl
  | ok T =>
    rcases hL : subs_loop env env.subPages2 (initSt f0) with ⟨st, r⟩
    cases r with
    | some e => exact Or.inr rfl
    | none => exact Or.inr rfl

/-! ## The claims -/

/-- **C1.** If, after the full pass over subscriptions, the checkpoint
set's size is at least the total subscription count `T` — the count
captured by the counting pass at run start, `get_total_subscription_count`,
not re-taken at run end — then the checkpoint persisted for the next
run is empty (and the run completes without an escaping exception). -/
theorem checkpoint_reset_on_completion (env : Env) (f0 : Option (Finset String))
    (T : Nat) (st : RunSt)
    (hT : get_total_subscription_count env = .ok T)
    (hloop : subs_loop env env.subPages2 (initSt f0) = (st, none))
    (hcard : T ≤ st.processed.card) :
    (fetch_and_store_data env f0).file = some ∅ ∧
    (fetch_and_store_data env f0).raised = none := by
  unfold fetch_and_store_data
  rw [hT, hloop]
  simp [hcard]

theorem checkpoint_reset_on_completion_witness :
    (fetch_and_store_data envOneSub none).file = some ∅ ∧
    (fetch_and_store_data envOneSub none).raised = none :=
  checkpoint_reset_on_completion envOneSub none 1
    ⟨{"A"}, [], [], ["A"]⟩ rfl (by decide) (by decide)

/-- **C2.** For a subscription list split into pages (each of at most 50
items), the paginated traversal is exhaustive and duplicate-free however
the page boundaries fall: the counting pass returns exactly the length
of the flattened list, and the processing pass equals the processing of
the flattened item list (each item visited exactly once, in order). -/
theorem pagination_exhaustive (env : Env) (pages : List (List Subscription)) (s : RunSt)
    (hsize : ∀ p ∈ pages, p.length ≤ 50)
    (h1 : env.subPages1 = pages.map Except.ok) :
    get_total_subscription_count env = .ok pages.flatten.length ∧
    subs_loop env (pages.map Except.ok) s = process_items env pages.flatten s := by
  constructor
  · unfold get_total_subscription_count
    rw [h1, count_loop_map_ok]
    simp
  · exact subs_loop_map_ok env pages s

theorem pagination_exhaustive_witness :
    get_total_subscription_count envTwoPages = .ok 2 ∧
    subs_loop envTwoPages
        ([[⟨"A", "Channel A"⟩], [⟨"B", "Channel B"⟩]].map Except.ok) (initSt none) =
      process_items envTwoPages [⟨"A", "Channel A"⟩, ⟨"B", "Channel B"⟩] (initSt none) :=
  pagination_exhaustive envTwoPages [[⟨"A", "Channel A"⟩], [⟨"B", "Channel B"⟩]]
    (initSt none) (by decide) rfl

/-- **C3.** Within one run, the Channel Processor is never invoked for a
channel that is already in the checkpoint set when its item is reached:
the invocation list has no duplicates and contains no id from the
checkpoint loaded at run start. -/
theorem channel_processed_at_most_once (env : Env) (f0 : Option (Finset String)) :
    (fetch_and_store_data env f0).invoked.Nodup ∧
    ∀ c ∈ (fetch_and_store_data env f0).invoked, c ∉ loadCheckpoint f0 := by
  obtain ⟨_, _, ⟨new, hinv, hnd, hnot, _⟩, _, _⟩ :=
    subs_loop_spec env env.subPages2 (initSt f0)
  have hinv2 : (subs_loop env env.subPages2 (initSt f0)).1.invoked = new := by
    simpa using hinv
  have hnot2 : ∀ c ∈ new, c ∉ loadCheckpoint f0 := hnot
  rcases fetch_invoked_cases env f0 with h | h <;> rw [h]
  · exact ⟨List.nodup_nil, by simp⟩
  · rw [hinv2]
    exact ⟨hnd, hnot2⟩

/-- **C4.** When the statistics lookup for a video returns an empty (or
missing) item list, `process_video` inserts no row, raises nothing, and
still logs the video as saved successfully. -/
theorem empty_stats_skips_insert (env : Env) (ct : String) (v : Video) (s : RunSt)
    (h : env.statsLookup v.videoId = .ok none) :
    process_video env ct v s =
      ({ s with logs := s.logs ++ [LogMsg.savedVideo v.videoTitle] }, none) := by
  unfold process_video
  rw [h]

theorem empty_stats_skips_insert_witness :
    process_video envOneSub "Channel A" ⟨"v1", "Video 1"⟩ (initSt none) =
      ({ initSt none with logs := [LogMsg.savedVideo "Video 1"] }, none) :=
  empty_stats_skips_insert envOneSub "Channel A" ⟨"v1", "Video 1"⟩ (initSt none) rfl

/-- **C5.** A transport-level error raised anywhere inside the
per-subscription loop stops the run, logs the error, does not raise
further, leaves the checkpoint file with its pre-run contents, and keeps
the video rows inserted before the error. -/
theorem http_error_aborts_run (env : Env) (f0 : Option (Finset String))
    (T : Nat) (st : RunSt) (e : Nat)
    (hT : get_total_subscription_count env = .ok T)
    (hloop : subs_loop env env.subPages2 (initSt f0) = (st, some e)) :
    fetch_and_store_data env f0 =
      { file := f0, rows := st.rows, logs := st.logs ++ [LogMsg.httpError e],
        invoked := st.invoked, raised := none } := by
  unfold fetch_and_store_data
  rw [hT, hloop]

theorem http_error_aborts_run_witness :
    fetch_and_store_data envAbort none =
      { file := none,
        rows := [⟨"Channel A", "Video 1", 5, 0, 2⟩],
        logs := [LogMsg.savedVideo "Video 1", LogMsg.httpError 500],
        invoked := ["A"], raised := none } :=
  http_error_aborts_run envAbort none 0
    ⟨{"A"}, [⟨"Channel A", "Video 1", 5, 0, 2⟩], [LogMsg.savedVideo "Video 1"], ["A"]⟩
    500 rfl (by decide)

/-- **C6 counterexample.** The counting pass runs before the `try`
block: an HTTP 403 raised by `get_total_subscription_count` escapes
`fetch_and_store_data` instead of being caught. -/
theorem counting_error_escapes :
    (fetch_and_store_data envCountErr none).raised = some 403 ∧
    (fetch_and_store_data envCountErr none).raised ≠ none := by
  decide

/-- **C6 (amended).** A transport-level error raised inside the
per-subscription processing loop is caught, logged, and does not escape
`fetch_and_store_data`; but an error raised during the initial
subscription-counting pass escapes the call uncaught. -/
theorem http_error_boundary (env : Env) (f0 : Option (Finset String)) :
    (∀ e, get_total_subscription_count env = .error e →
      (fetch_and_store_data env f0).raised = some e) ∧
    (∀ T st e, get_total_subscription_count env = .ok T →
      subs_loop env env.subPages2 (initSt f0) = (st, some e) →
      (fetch_and_store_data env f0).raised = none ∧
      LogMsg.httpError e ∈ (fetch_and_store_data env f0).logs) := by
  constructor
  · intro e hE
    unfold fetch_and_store_data
    rw [hE]
  · intro T st e hT hloop
    unfold fetch_and_store_data
    rw [hT, hloop]
    exact ⟨rfl, by simp⟩

theorem http_error_boundary_witness :
    (fetch_and_store_data envCountErr none).raised = some 403 ∧
    (fetch_and_store_data envAbort none).raised = none ∧
    LogMsg.httpError 500 ∈ (fetch_and_store_data envAbort none).logs := by
  refine ⟨(http_error_boundary envCountErr none).1 403 rfl, ?_, ?_⟩
  · exact ((http_error_boundary envAbort none).2 0
      ⟨{"A"}, [⟨"Channel A", "Video 1", 5, 0, 2⟩], [LogMsg.savedVideo "Video 1"], ["A"]⟩
      500 rfl (by decide)).1
  · exact ((http_error_boundary envAbort none).2 0
      ⟨{"A"}, [⟨"Channel A", "Video 1", 5, 0, 2⟩], [LogMsg.savedVideo "Video 1"], ["A"]⟩
      500 rfl (by decide)).2

/-- **C7.** Each counter column of the row built by `save_to_database`
equals the corresponding statistics field when present and `0` when the
platform omits it. -/
theorem counters_default_zero (ct vt : String) (st : Stats) :
    ((∀ n, st.viewCount = some n → (save_to_database ct vt st).views = n) ∧
      (st.viewCount = none → (save_to_database ct vt st).views = 0)) ∧
    ((∀ n, st.likeCount = some n → (save_to_database ct vt st).likes = n) ∧
      (st.likeCount = none → (save_to_database ct vt st).likes = 0)) ∧
    ((∀ n, st.commentCount = some n → (save_to_database ct vt st).comment_count = n) ∧
      (st.commentCount = none → (save_to_database ct vt st).comment_count = 0)) := by
  refine ⟨⟨?_, ?_⟩, ⟨?_, ?_⟩, ⟨?_, ?_⟩⟩
  · intro n h
    simp [save_to_database, h]
  · intro h
    simp [save_to_database, h]
  · intro n h
    simp [save_to_database, h]
  · intro h
    simp [save_to_database, h]
  · intro n h
    simp [save_to_database, h]
  · intro h
    simp [save_to_database, h]

theorem counters_default_zero_witness :
    (save_to_database "c" "v" ⟨some 7, none, some 3⟩).views = 7 ∧
    (save_to_database "c" "v" ⟨some 7, none, some 3⟩).likes = 0 ∧
    (save_to_database "c" "v" ⟨some 7, none, some 3⟩).comment_count = 3 :=
  ⟨(counters_default_zero "c" "v" ⟨some 7, none, some 3⟩).1.1 7 rfl,
   (counters_default_zero "c" "v" ⟨some 7, none, some 3⟩).2.1.2 rfl,
   (counters_default_zero "c" "v" ⟨some 7, none, some 3⟩).2.2.1 3 rfl⟩

/-- **C8 counterexample.** A stale id loaded from the checkpoint file
(`"X"`, not among the current subscriptions) is still in the checkpoint
set at the moment the reset clears it: the run completes, the reset
fires, and `"X"` is in the pre-reset checkpoint though absent from
every served subscription page. -/
theorem stale_id_at_clear_time :
    (subs_loop envOneSub envOneSub.subPages2 (initSt (some {"X"}))).2 = none ∧
    "X" ∈ (subs_loop envOneSub envOneSub.subPages2 (initSt (some {"X"}))).1.processed ∧
    "X" ∉ pages_channel_ids envOneSub.subPages2 ∧
    (fetch_and_store_data envOneSub (some {"X"})).file = some ∅ := by
  decide

/-- **C8 (amended).** During a run the in-memory checkpoint set grows
monotonically — ids are only added, never removed individually — up to
the terminal reset check, and at that moment it is contained in the
loaded checkpoint plus the ids of the served subscription pages; ids
absent from the current subscription list can persist from the loaded
file (stale entries are cleared only by the wholesale reset). -/
theorem checkpoint_monotone (env : Env) (pages : List (Except Nat (List Subscription)))
    (s : RunSt) :
    s.processed ⊆ (subs_loop env pages s).1.processed ∧
    (subs_loop env pages s).1.processed ⊆ s.processed ∪ pages_channel_ids pages :=
  ⟨(subs_loop_spec env pages s).1, (subs_loop_spec env pages s).2.1⟩

/-- **C9.** Saving a set of line-boundary-free channel ids and loading
the checkpoint file back returns exactly that set; the save overwrites
the file in full, so the result does not depend on previous contents. -/
theorem checkpoint_roundtrip (ids : List (List Char))
    (h : ∀ s ∈ ids, ∀ c ∈ s, isLineBreak c = false) :
    load_processed_channels (some (save_processed_channels ids)) = ids.toFinset := by
  show (splitlines (save_processed_channels ids)).toFinset = ids.toFinset
  rw [splitlines_save ids h]

theorem checkpoint_roundtrip_witness :
    load_processed_channels (some (save_processed_channels [['a'], ['b', 'c']])) =
      ([['a'], ['b', 'c']] : List (List Char)).toFinset :=
  checkpoint_roundtrip [['a'], ['b', 'c']] (by decide)

/-- **C10.** A missing checkpoint file loads as the empty set without
raising, and a run starting from it processes every subscription: every
channel id of every served page is invoked during a clean run. -/
theorem absent_checkpoint_file (env : Env) (st : RunSt)
    (hloop : subs_loop env env.subPages2 (initSt none) = (st, none)) :
    load_processed_channels none = ∅ ∧
    ∀ items, Except.ok items ∈ env.subPages2 → ∀ it ∈ items, it.channelId ∈ st.invoked := by
  refine ⟨rfl, ?_⟩
  obtain ⟨_, _, _, h4, h5⟩ := subs_loop_spec env env.subPages2 (initSt none)
  rw [hloop] at h4 h5
  intro items hmem it hit
  have hp : it.channelId ∈ st.processed := h4 rfl items hmem it hit
  rcases h5 it.channelId hp with h | h
  · exact absurd h (by simp [initSt, loadCheckpoint])
  · exact h

theorem absent_checkpoint_file_witness :
    load_processed_channels none = ∅ ∧
    ∀ items, Except.ok items ∈ envOneSub.subPages2 → ∀ it ∈ items,
      it.channelId ∈ (["A"] : List String) :=
  absent_checkpoint_file envOneSub ⟨{"A"}, [], [], ["A"]⟩ (by decide)

end YTCollector
